import Mathlib

/-!
# Verification of the Amadeus Pocket change-propagation pipeline

Shallow embedding of `src/amadeus/github/workflow.py` (class `GitHubWorkflow`)
and the parts of `src/amadeus/github/client.py` it depends on.

Modelling conventions:
* External I/O (GitHub API calls, AI provider calls) is modelled by an
  environment (`Env`) of response oracles.  Each oracle returns
  `Except String α`: `.error e` models a Python exception raised by the call,
  `.ok v` the value the call returned (Python `None` becomes `Option.none`).
* Python strings are Lean `String`s (sequences of unicode code points, which
  matches Python string indexing/`len`).
* `json.loads` is modelled by an oracle `String → Option Json`
  (`none` = `json.JSONDecodeError`); the JSON value space is the inductive
  `Json` below (numbers restricted to integers, which is enough for every
  value the pipeline manipulates).
* Uncaught Python exceptions are `Except.error` results; the message text of a
  modelled exception is a label, not a byte-faithful CPython message.
-/

set_option maxHeartbeats 1000000

namespace Amadeus

/-- JSON values, the model of Python objects produced by `json.loads`. -/
inductive Json where
  | null
  | bool (b : Bool)
  | num (n : Int)
  | str (s : String)
  | arr (xs : List Json)
  | obj (kvs : List (String × Json))
deriving Repr

/-- Python truthiness of an optional string (`None` and `""` are falsy). -/
def pyTruthyStr : Option String → Bool
  | some s => s ≠ ""
  | none => false

/-- Python truthiness of a JSON value (`bool(x)`). -/
def jTruthy : Json → Bool
  | .null => false
  | .bool b => b
  | .num n => n ≠ 0
  | .str s => s ≠ ""
  | .arr xs => !xs.isEmpty
  | .obj kvs => !kvs.isEmpty

/-- Dictionary lookup (`d.get(k)` / `k in d`); JSON objects that reach the
parser have distinct keys, so first-match lookup is faithful. -/
def jLookup (kvs : List (String × Json)) (k : String) : Option Json :=
  (kvs.find? (fun p => p.1 == k)).map (·.2)

/-- The Python `str(...)` image of a JSON value; only the `.str` case is ever
exercised by the pipeline (the model prompt mandates string fields). -/
def jAsPyStr : Json → String
  | .str s => s
  | .null => "None"
  | .bool true => "True"
  | .bool false => "False"
  | .num n => toString n
  | .arr _ => "<list>"
  | .obj _ => "<dict>"

/-- `workflow.py` `FileChange` dataclass. -/
structure FileChange where
  path : String
  content : String
  action : String := "update"
deriving Repr, DecidableEq

/-- `workflow.py` `WorkflowResult` dataclass (`summary`/`next_steps` keep the
raw JSON values the parser extracted). -/
structure WorkflowResult where
  success : Bool
  message : String
  commit_sha : Option String := none
  commit_url : Option String := none
  pr_url : Option String := none
  branch : Option String := none
  changed_files : Option (List String) := none
  error : Option String := none
  summary : Option Json := none
  next_steps : Option Json := none
deriving Repr

/-- `workflow.py` `StreamingUpdate` dataclass. -/
structure StreamingUpdate where
  status : String
  current_file : Option String := none
  files_so_far : Option (List String) := none
  partial_text : Option String := none
deriving Repr, DecidableEq

/-- `db/models.py` `GitHubConnection` (fields the workflow reads). -/
structure GitHubConnection where
  access_token : Option String := none
  selected_repo : Option String := none
deriving Repr

/-- `GitHubConnection.is_connected` property (`access_token is not None`). -/
def GitHubConnection.is_connected (g : GitHubConnection) : Bool :=
  g.access_token.isSome

/-- `db/models.py` `UserAPIKeys` (fields the workflow reads). -/
structure UserAPIKeys where
  openai_key : Option String := none
  anthropic_key : Option String := none
deriving Repr

/-- `db/models.py` `UserSettings` (fields the workflow reads). -/
structure UserSettings where
  default_model : String := "gpt-5.2"
deriving Repr

/-- `db/models.py` `User` (fields the workflow reads). -/
structure User where
  github : GitHubConnection
  api_keys : UserAPIKeys
  settings : UserSettings
deriving Repr

/-- External calls the workflow issues, recorded as a trace so that claims
about "no branch-creation call" / "gateway never invoked" are statable.
`commitFile` records the `sha` value passed to
`GitHubClient.create_or_update_file`. -/
inductive Call where
  | getRepo
  | getBranchSha
  | createBranch (name : String)
  | getTree
  | aiCall
  | getFileContent (path : String)
  | commitFile (path : String) (sha : Option String)
  | createPR
deriving Repr, DecidableEq

/-- The triple `(changes, summary, next_steps)` returned by the AI-call layer. -/
abbrev AiTriple := List FileChange × Option Json × Option Json

/-- Response oracles for every external call the pipeline can make.
`create_or_update_file` is indexed by the call's position in the commit loop
(0-based); `.ok none` models a non-2xx API status (the client returns `None`),
`.error e` a raised exception. -/
structure Env where
  get_repo : Except String (Option String)
  get_branch_sha : Except String (Option String)
  create_branch : Except String Bool
  get_tree : Except String (Option (List String))
  get_file_content : String → Except String (Option String × Option String)
  create_or_update_file : Nat → Except String (Option String)
  create_pull_request : Except String (Option String)
  anthropic_result : AiTriple
  openai_result : AiTriple
  branch_ts : String
  branch_rand : String
  fallback_ts : String

/-! ## String helpers (Python semantics) -/

/-- ASCII `str.lower()` (the pipeline's prompts are slugged over `[a-z]`). -/
def asciiLower (s : String) : String :=
  String.mk (s.data.map fun c => if 'A' ≤ c ∧ c ≤ 'Z' then Char.ofNat (c.toNat + 32) else c)

/-- Python `\s` (ASCII range, which is what the pipeline's inputs contain). -/
def isPyWs (c : Char) : Bool :=
  c = ' ' || c = '\t' || c = '\n' || c = '\r' || c = '\x0b' || c = '\x0c'

/-- Python `str.strip()`. -/
def pyStrip (s : String) : String :=
  String.mk (((s.data.dropWhile isPyWs).reverse.dropWhile isPyWs).reverse)

/-- Python `str.split(sep)` for a one-character separator (the pipeline only
splits on `"/"` and `"\n"`). -/
def pySplitCharAux (sep : Char) : List Char → List Char → List String
  | [], acc => [String.mk acc.reverse]
  | c :: cs, acc =>
    if c = sep then String.mk acc.reverse :: pySplitCharAux sep cs []
    else pySplitCharAux sep cs (c :: acc)

/-- Python `s.split(sep)`, `sep` a single character. -/
def pySplitChar (sep : Char) (s : String) : List String :=
  pySplitCharAux sep s.data []

/-- Python `s.startswith(p)`. -/
def pyStartsWith (p s : String) : Bool :=
  p.data.isPrefixOf s.data

/-- `[a-z]`. -/
def isLowerAZ (c : Char) : Bool := 'a' ≤ c && c ≤ 'z'

/-- Regex word character `\w` = `[a-zA-Z0-9_]` (ASCII). -/
def isWordChar (c : Char) : Bool :=
  ('a' ≤ c && c ≤ 'z') || ('A' ≤ c && c ≤ 'Z') || ('0' ≤ c && c ≤ '9') || c = '_'

/-- Character class `[a-zA-Z0-9_\-\.]` of `_simple_file_creation`'s regex. -/
def isFnameChar (c : Char) : Bool :=
  isWordChar c || c = '-' || c = '.'

/-! ### `re.findall(r'\b[a-z]+\b', ...)` (`_generate_branch_name`) -/

/-- Fuel-driven scan: maximal `[a-z]+` runs whose boundaries are word
boundaries.  `prevW` says whether the previous character was a word char. -/
def lowerWordsAux : Nat → Bool → List Char → List String
  | 0, _, _ => []
  | _ + 1, _, [] => []
  | fuel + 1, prevW, c :: cs =>
    if isLowerAZ c then
      let run := c :: cs.takeWhile isLowerAZ
      let rest := cs.dropWhile isLowerAZ
      let okStart := !prevW
      let okEnd := match rest with
        | [] => true
        | d :: _ => !isWordChar d
      let tail := lowerWordsAux fuel true rest
      if okStart && okEnd then String.mk run :: tail else tail
    else
      lowerWordsAux fuel (isWordChar c) cs

/-- `re.findall(r'\b[a-z]+\b', s)`. -/
def lowerWords (s : String) : List String :=
  lowerWordsAux s.length false s.data

/-! ### `re.search` pattern of `_simple_file_creation`:
`(?:file|create|add)\s+(?:named?\s+)?["\']?([a-zA-Z0-9_\-\.]+)["\']?` -/

/-- Consume an exact literal. -/
def dropLit (p : List Char) (cs : List Char) : Option (List Char) :=
  if p.isPrefixOf cs then some (cs.drop p.length) else none

/-- Consume `\s+` (at least one whitespace char, greedily). -/
def dropWs1 (cs : List Char) : Option (List Char) :=
  match cs with
  | c :: rest => if isPyWs c then some (rest.dropWhile isPyWs) else none
  | [] => none

/-- `([a-zA-Z0-9_\-\.]+)`: the greedy capture group. -/
def classPlus (cs : List Char) : Option String :=
  let run := cs.takeWhile isFnameChar
  if run.isEmpty then none else some (String.mk run)

/-- `["\']?` then the capture group, with the regex engine's backtracking
order (quote consumed first, then the empty alternative). -/
def quoteClass (cs : List Char) : Option String :=
  (match cs with
   | c :: rest => if c = '"' || c = '\'' then classPlus rest else none
   | [] => none) <|> classPlus cs

/-- `(?:named?\s+)?` then `["\']?(...)`, alternatives in backtracking order:
`named\s+`, `name\s+`, empty. -/
def matchTail (cs : List Char) : Option String :=
  (do quoteClass (← dropWs1 (← dropLit "named".data cs))) <|>
  (do quoteClass (← dropWs1 (← dropLit "name".data cs))) <|>
  quoteClass cs

/-- Attempt the whole pattern anchored at the current position. -/
def matchFileAt (cs : List Char) : Option String := do
  let r ← dropLit "file".data cs <|> dropLit "create".data cs <|> dropLit "add".data cs
  matchTail (← dropWs1 r)

/-- `re.search`: leftmost successful match, scanning position by position. -/
def searchFilePattern : List Char → Option String
  | [] => none
  | c :: cs =>
    match matchFileAt (c :: cs) with
    | some cap => some cap
    | none => searchFilePattern cs

/-! ### `re.findall(r'"path"\s*:\s*"([^"]+)"', ...)` (streaming scan) -/

/-- Attempt the path-marker pattern at the current position; on success
return the captured path and the number of characters the match consumed. -/
def matchPathAt (cs : List Char) : Option (String × Nat) := do
  let r ← dropLit "\"path\"".data cs
  let r1 := r.dropWhile isPyWs
  let r2 ← dropLit [':'] r1
  let r3 := r2.dropWhile isPyWs
  let r4 ← dropLit ['"'] r3
  let cap := r4.takeWhile (fun c => c ≠ '"')
  if cap.isEmpty then none
  else
    let r5 := r4.drop cap.length
    let _ ← dropLit ['"'] r5
    some (String.mk cap, cs.length - r5.length + 1)

/-- Fuel-driven non-overlapping leftmost scan (`re.findall` with one group). -/
def findPathsAux : Nat → List Char → List String
  | 0, _ => []
  | _ + 1, [] => []
  | fuel + 1, c :: cs =>
    match matchPathAt (c :: cs) with
    | some (p, k) => p :: findPathsAux fuel ((c :: cs).drop k)
    | none => findPathsAux fuel cs

/-- `re.findall(r'"path"\s*:\s*"([^"]+)"', s)`. -/
def findPaths (s : String) : List String :=
  findPathsAux s.length s.data

/-! ## `GitHubWorkflow._simple_file_creation` and `_generate_branch_name` -/

/-- `GitHubWorkflow._simple_file_creation` (`datetime.utcnow()` is supplied
as the pre-formatted `utcTs` string). -/
def simple_file_creation (prompt : String) (utcTs : String) : List FileChange :=
  let prompt_lower := asciiLower prompt
  match searchFilePattern prompt_lower.data with
  | some filename =>
    let filename := if filename.data.contains '.' then filename else filename ++ ".txt"
    [{ path := filename,
       content := s!"# {filename}\n\nCreated by Amadeus Pocket 🎭\n\nPrompt: {prompt}\n",
       action := "create" }]
  | none =>
    [{ path := s!"amadeus_change_{utcTs}.md",
       content := s!"# Change Request\n\n**Prompt:** {prompt}\n\n*Generated by Amadeus Pocket*\n",
       action := "create" }]

/-- `GitHubWorkflow._generate_branch_name` (`ts` = formatted timestamp,
`rand` = `secrets.token_hex(2)`, both supplied by the environment). -/
def generate_branch_name (prompt : String) (ts : String) (rand : String) : String :=
  let words := lowerWords (asciiLower prompt)
  let keywords := (words.filter (fun w => w.length > 3)).take 3
  let slug := if !keywords.isEmpty then "-".intercalate keywords else "update"
  s!"amadeus/{slug}-{ts}-{rand}"

/-! ## `GitHubWorkflow._parse_ai_response_with_meta` -/

/-- The code-fence removal block of `_parse_ai_response_with_meta`. -/
def stripFence (content : String) : String :=
  if pyStartsWith "```" content then
    let lines := pySplitChar '\n' content
    let last := lines.getLast?.getD ""
    "\n".intercalate
      (if pyStrip last = "```" then (lines.drop 1).dropLast else lines.drop 1)
  else content

/-- The per-entry extraction loop of `_parse_ai_response_with_meta`: keep the
entries that are dicts with `path` and `content` keys, defaulting `action`
to `"create"`. -/
def extractChanges : List Json → List FileChange
  | [] => []
  | item :: rest =>
    match item with
    | .obj kvs =>
      match jLookup kvs "path", jLookup kvs "content" with
      | some p, some c =>
        let action := match jLookup kvs "action" with
          | some a => jAsPyStr a
          | none => "create"
        { path := jAsPyStr p, content := jAsPyStr c, action := action }
          :: extractChanges rest
      | _, _ => extractChanges rest
    | _ => extractChanges rest

/-- `GitHubWorkflow._parse_ai_response_with_meta`.  `loads` models
`json.loads` (`none` = `JSONDecodeError`, which the function catches and
turns into an empty triple).  `.error` models the uncaught `AttributeError`
raised by `data.get("summary")` when the decoded value is not a dict
(e.g. the legacy bare-list shape). -/
def parse_ai_response_with_meta (loads : String → Option Json) (content : String) :
    Except String AiTriple :=
  let content := pyStrip content
  let content := stripFence content
  match loads content with
  | none => .ok ([], none, none)
  | some data =>
    match data with
    | .obj kvs =>
      let summary : Option Json :=
        match jLookup kvs "summary" with
        | none => none
        | some .null => none
        | some v => some v
      let next_steps : Json := (jLookup kvs "next_steps").getD (.arr [])
      let files_data : List Json :=
        match jLookup kvs "files" with
        | some (.arr xs) => xs
        | some v => [v]
        | none => [data]
      let changes := extractChanges files_data
      .ok (changes, summary, if jTruthy next_steps then some next_steps else none)
    | _ => .error "AttributeError: object has no attribute get"

/-! ## Streaming loops (`_call_anthropic_streaming` / `_call_openai_streaming`)

The SSE line stream is modelled after `json.loads` of each `data:` payload:
`notData` = a line not starting with `"data: "`, `doneMarker` = the
`[DONE]` sentinel, `badJson` = a payload `json.loads` rejects (skipped by the
`except json.JSONDecodeError: continue`), `event` = a decoded event with the
fields the loop reads.  A transport exception raised by the line iterator is
modelled by `midExn`: it fires only if the loop never breaks on `[DONE]`. -/

/-- Scan state of a streaming call: the accumulated response text, the
ordered list of file paths discovered so far and `last_update_len`. -/
structure ScanState where
  full_content : String
  files_detected : List String
  last_update_len : Nat
deriving Repr

/-- The `for f in new_files` loop body: append unseen paths and emit one
`writing_file` event per newly appended path (with a snapshot copy of
`files_detected`). -/
def emitNew (fd : List String) : List String → List String × List StreamingUpdate
  | [] => (fd, [])
  | f :: fs =>
    if f ∈ fd then emitNew fd fs
    else
      let fd' := fd ++ [f]
      let (fd'', evs) := emitNew fd' fs
      (fd'', { status := "writing_file", current_file := some f,
               files_so_far := some fd' } :: evs)

/-- Processing of one text delta: append to the buffer, scan only the suffix
beyond `last_update_len` for path markers, emit events for new paths. -/
def scanStep (st : ScanState) (text : String) : ScanState × List StreamingUpdate :=
  let full := st.full_content ++ text
  let newFiles := findPaths (full.drop st.last_update_len)
  let (fd, evs) := emitNew st.files_detected newFiles
  ({ full_content := full, files_detected := fd, last_update_len := full.length }, evs)

/-- One decoded Anthropic SSE line. -/
inductive AnthLine where
  | notData (raw : String)
  | doneMarker
  | badJson
  | event (type : Option String) (deltaType : Option String) (deltaText : Option String)
deriving Repr, DecidableEq

/-- The `async for line in response.aiter_lines()` loop of
`_call_anthropic_streaming`; the returned `Bool` records whether the loop
broke on `[DONE]`. -/
def anthLoop (st : ScanState) : List AnthLine → ScanState × List StreamingUpdate × Bool
  | [] => (st, [], false)
  | l :: ls =>
    match l with
    | .doneMarker => (st, [], true)
    | .event t dt dtext =>
      if t = some "content_block_delta" && dt = some "text_delta" then
        let (st', evs) := scanStep st (dtext.getD "")
        let (st'', evs₂, b) := anthLoop st' ls
        (st'', evs ++ evs₂, b)
      else anthLoop st ls
    | _ => anthLoop st ls

/-- The `thinking` event constant. -/
def thinkingEv : StreamingUpdate := { status := "thinking" }

/-- The `done` event carrying the final `files_detected`. -/
def doneEv (fd : List String) : StreamingUpdate :=
  { status := "done", files_so_far := some fd }

/-- `GitHubWorkflow._call_anthropic_streaming`, as a function of the HTTP
status, the decoded SSE lines and an optional mid-stream transport
exception.  Returns the emitted `on_stream` events and the parsed triple
(`([], none, none)` on any caught failure, exactly as the source's
`except` blocks do). -/
def call_anthropic_streaming (loads : String → Option Json) (status : Nat)
    (lines : List AnthLine) (midExn : Option String) :
    List StreamingUpdate × AiTriple :=
  if status ≠ 200 then ([], ([], none, none))
  else
    let (st, evs, broke) := anthLoop ⟨"", [], 0⟩ lines
    if midExn.isSome && !broke then
      -- the iterator raised after yielding `lines`: caught by the outer
      -- `except Exception`, no `done` event, empty result
      (thinkingEv :: evs, ([], none, none))
    else
      let parsed := match parse_ai_response_with_meta loads st.full_content with
        | .ok t => t
        | .error _ => ([], none, none)
      (thinkingEv :: evs ++ [doneEv st.files_detected], parsed)

/-- One decoded OpenAI SSE line.  `event c`: `c = none` models an
empty/absent `choices` array; `c = some t` models `choices[0].delta` with
`t` the value of `delta.get("content", "")` after Python's `None`
collapse (`none` = absent or `null`). -/
inductive OaiLine where
  | notData (raw : String)
  | doneMarker
  | badJson
  | event (choice0content : Option (Option String))
deriving Repr, DecidableEq

/-- The SSE loop of `_call_openai_streaming` (`if text:` skips empty/absent
content). -/
def oaiLoop (st : ScanState) : List OaiLine → ScanState × List StreamingUpdate × Bool
  | [] => (st, [], false)
  | l :: ls =>
    match l with
    | .doneMarker => (st, [], true)
    | .event c =>
      match c with
      | some (some t) =>
        if t ≠ "" then
          let (st', evs) := scanStep st t
          let (st'', evs₂, b) := oaiLoop st' ls
          (st'', evs ++ evs₂, b)
        else oaiLoop st ls
      | _ => oaiLoop st ls
    | _ => oaiLoop st ls

/-- `GitHubWorkflow._call_openai_streaming` (same modelling as the
Anthropic variant). -/
def call_openai_streaming (loads : String → Option Json) (status : Nat)
    (lines : List OaiLine) (midExn : Option String) :
    List StreamingUpdate × AiTriple :=
  if status ≠ 200 then ([], ([], none, none))
  else
    let (st, evs, broke) := oaiLoop ⟨"", [], 0⟩ lines
    if midExn.isSome && !broke then
      (thinkingEv :: evs, ([], none, none))
    else
      let parsed := match parse_ai_response_with_meta loads st.full_content with
        | .ok t => t
        | .error _ => ([], none, none)
      (thinkingEv :: evs ++ [doneEv st.files_detected], parsed)

/-! ## `GitHubWorkflow.execute` and helpers -/

/-- A failure `WorkflowResult` (every failure return in `execute` sets only
`success`, `message` and `error`). -/
def failRes (msg err : String) : WorkflowResult :=
  { success := false, message := msg, error := some err }

/-- The success `WorkflowResult` built at the end of `execute`. -/
def mkSuccess (commit : Option String) (commit_url pr_url : Option String)
    (branch : String) (changed : List String)
    (summary next_steps : Option Json) : WorkflowResult :=
  { success := true, message := "Changes pushed successfully!",
    commit_sha := commit, commit_url := commit_url, pr_url := pr_url,
    branch := some branch, changed_files := some changed,
    summary := summary, next_steps := next_steps }

/-- `user.settings.default_model or "gpt-5.2"`. -/
def userModel (user : User) : String :=
  if user.settings.default_model = "" then "gpt-5.2" else user.settings.default_model

/-- `GitHubWorkflow._generate_ai_changes`: key check, provider/model
selection, and the `ValueError` raised when the selected streaming call
returns no changes.  The streaming calls themselves never raise (they catch
all exceptions), so their outcome is the environment's `AiTriple`. -/
def generate_ai_changes (user : User) (env : Env) : Except String AiTriple :=
  let has_anthropic := pyTruthyStr user.api_keys.anthropic_key
  let has_openai := pyTruthyStr user.api_keys.openai_key
  if !has_anthropic && !has_openai then
    .error "No API keys configured. Use /settings to add your Anthropic or OpenAI key."
  else
    let result : Option AiTriple :=
      if pyStartsWith "claude" (userModel user) then
        if has_anthropic then some env.anthropic_result
        else if has_openai then some env.openai_result
        else none
      else
        if has_openai then some env.openai_result
        else if has_anthropic then some env.anthropic_result
        else none
    match result with
    | none => .error "AI returned no changes. Try a more specific request."
    | some (changes, s, ns) =>
      if changes.isEmpty then
        .error "AI returned no changes. Try a more specific request."
      else .ok (changes, s, ns)

/-- Step 5 of `execute` (lines 180–192): choose between the no-credential
fallback and the AI call, then re-apply the fallback if the change list is
empty. -/
def computeChanges (user : User) (prompt : String) (env : Env) :
    Except String (List FileChange × Option Json × Option Json) :=
  let base : Except String AiTriple :=
    if !pyTruthyStr user.api_keys.anthropic_key && !pyTruthyStr user.api_keys.openai_key then
      .ok (simple_file_creation prompt env.fallback_ts, none, none)
    else generate_ai_changes user env
  match base with
  | .error e => .error e
  | .ok (changes, s, ns) =>
    .ok ((if changes.isEmpty then simple_file_creation prompt env.fallback_ts else changes),
         s, ns)

/-- The commit loop of `execute` (lines 199–221): sequentially, for each
change, probe the current file content when `action == "update"`, then call
`create_or_update_file` with the probed sha; record the path on success.
`commit` is overwritten by every call's result (successful or not), exactly
as in the source.  The trace records the probe and the sha passed to each
write. -/
def commitLoop (env : Env) :
    List FileChange → Nat → Option String → List String → List Call →
    Except String (Option String × List String) × List Call
  | [], _, commit, changed, tr => (.ok (commit, changed), tr)
  | c :: rest, k, _commit, changed, tr =>
    let probe : Except String (Option String) × List Call :=
      if c.action = "update" then
        match env.get_file_content c.path with
        | .error e => (.error e, tr ++ [.getFileContent c.path])
        | .ok (_, sha) => (.ok sha, tr ++ [.getFileContent c.path])
      else (.ok none, tr)
    match probe with
    | (.error e, tr') => (.error e, tr')
    | (.ok existing_sha, tr') =>
      match env.create_or_update_file k with
      | .error e => (.error e, tr' ++ [.commitFile c.path existing_sha])
      | .ok newCommit =>
        let tr'' := tr' ++ [.commitFile c.path existing_sha]
        match newCommit with
        | some csha => commitLoop env rest (k + 1) (some csha) (changed ++ [c.path]) tr''
        | none => commitLoop env rest (k + 1) none changed tr''

/-- `execute` from the tree fetch onward, once the branch name is known. -/
def executeAfterBranch (user : User) (prompt : String) (create_pr : Bool)
    (existing_pr_number : Option Nat) (env : Env)
    (repo_full_name _default_branch branch_name : String) (tr : List Call) :
    Except String WorkflowResult × List Call :=
  let tr := tr ++ [Call.getTree]
  match env.get_tree with
  | .error e => (.error e, tr)
  | .ok _tree =>
    let aiInvoked :=
      pyTruthyStr user.api_keys.anthropic_key || pyTruthyStr user.api_keys.openai_key
    let tr := if aiInvoked then tr ++ [Call.aiCall] else tr
    match computeChanges user prompt env with
    | .error e => (.error e, tr)
    | .ok (changes, summary, next_steps) =>
      match commitLoop env changes 0 none [] tr with
      | (.error e, tr') => (.error e, tr')
      | (.ok (commit, changed_files), tr') =>
        if changed_files.isEmpty then
          (.ok (failRes "No changes committed" "No files could be modified"), tr')
        else
          let commit_url := commit.map
            (fun sha => s!"https://github.com/{repo_full_name}/commit/{sha}")
          match existing_pr_number with
          | some n =>
            (.ok (mkSuccess commit commit_url
                    (some s!"https://github.com/{repo_full_name}/pull/{n}")
                    branch_name changed_files summary next_steps), tr')
          | none =>
            if create_pr then
              let tr'' := tr' ++ [Call.createPR]
              match env.create_pull_request with
              | .error e => (.error e, tr'')
              | .ok pru =>
                (.ok (mkSuccess commit commit_url pru
                        branch_name changed_files summary next_steps), tr'')
            else
              (.ok (mkSuccess commit commit_url none
                      branch_name changed_files summary next_steps), tr')

/-- The body of `execute`'s `try` block (after the pre-`try` validation). -/
def executeBody (user : User) (prompt : String) (create_pr : Bool)
    (existing_branch : Option String) (existing_pr_number : Option Nat)
    (env : Env) (repo_full_name : String) :
    Except String WorkflowResult × List Call :=
  let tr := [Call.getRepo]
  match env.get_repo with
  | .error e => (.error e, tr)
  | .ok none =>
    (.ok (failRes "Repository not found" s!"Could not access {repo_full_name}"), tr)
  | .ok (some default_branch) =>
    let tr := tr ++ [Call.getBranchSha]
    match env.get_branch_sha with
    | .error e => (.error e, tr)
    | .ok none =>
      (.ok (failRes "Could not get branch SHA" s!"Could not read branch {default_branch}"), tr)
    | .ok (some _base_sha) =>
      match existing_branch with
      | some branch_name =>
        executeAfterBranch user prompt create_pr existing_pr_number env
          repo_full_name default_branch branch_name tr
      | none =>
        let branch_name := generate_branch_name prompt env.branch_ts env.branch_rand
        let tr := tr ++ [Call.createBranch branch_name]
        match env.create_branch with
        | .error e => (.error e, tr)
        | .ok false =>
          (.ok (failRes "Could not create branch" s!"Could not create branch {branch_name}"), tr)
        | .ok true =>
          executeAfterBranch user prompt create_pr existing_pr_number env
            repo_full_name default_branch branch_name tr

/-- `GitHubWorkflow.execute`.  The result is `.ok (workflowResult, trace)`
when the Python function returns, and `.error _` when it raises: the only
uncaught raise is the tuple-unpacking `ValueError` of
`owner, repo_name = repo_full_name.split("/")`, which sits before the `try`
block.  Everything raised inside the `try` is converted to the
`"Workflow failed"` result by the `except` handler. -/
def execute (user : User) (prompt : String) (create_pr : Bool)
    (existing_branch : Option String) (existing_pr_number : Option Nat)
    (env : Env) : Except String (WorkflowResult × List Call) :=
  if !user.github.is_connected then
    .ok (failRes "GitHub not connected" "Connect GitHub first with /github", [])
  else if !pyTruthyStr user.github.selected_repo then
    .ok (failRes "No repository selected" "Select a repo first with /repos", [])
  else
    let repo_full_name := user.github.selected_repo.getD ""
    match pySplitChar '/' repo_full_name with
    | [_owner, _repo_name] =>
      match executeBody user prompt create_pr existing_branch existing_pr_number
          env repo_full_name with
      | (.ok r, tr) => .ok (r, tr)
      | (.error e, tr) => .ok (failRes "Workflow failed" e, tr)
    | _ => .error "ValueError: unpack"

/-! ## Specification predicates and helper lemmas -/

/-- The current content hash the Repository Gateway would report for `p`
(the `sha` component of `get_file_content`). -/
def probeSha (env : Env) (p : String) : Option String :=
  match env.get_file_content p with
  | .ok (_, s) => s
  | .error _ => none

/-- The sequence of repository calls the commit step performs, per edit:
a probe followed by a write carrying the probed sha for `update` actions,
a bare write carrying no sha otherwise. -/
def commitCallsSpec (env : Env) : List FileChange → List Call
  | [] => []
  | c :: rest =>
    (if c.action = "update" then
       [Call.getFileContent c.path, Call.commitFile c.path (probeSha env c.path)]
     else [Call.commitFile c.path none]) ++ commitCallsSpec env rest

/-- Calls that the commit loop may issue. -/
def isCommitCall : Call → Prop
  | .getFileContent _ => True
  | .commitFile _ _ => True
  | _ => False

/-- A call that is not a branch-creation call. -/
def notCreateBranch (x : Call) : Prop := ∀ n, x ≠ Call.createBranch n

theorem commitLoop_ok_sublist (env : Env) :
    ∀ (changes : List FileChange) (k : Nat) (c0 : Option String)
      (ch0 : List String) (tr0 : List Call) (out : Option String × List String)
      (tr : List Call),
      commitLoop env changes k c0 ch0 tr0 = (.ok out, tr) →
      ∃ d, out.2 = ch0 ++ d ∧ d.Sublist (changes.map FileChange.path) := by
  intro changes
  induction changes with
  | nil =>
    intro k c0 ch0 tr0 out tr h
    simp only [commitLoop, Prod.mk.injEq, Except.ok.injEq] at h
    obtain ⟨rfl, rfl⟩ := h
    exact ⟨[], by simp⟩
  | cons c rest ih =>
    intro k c0 ch0 tr0 out tr h
    simp only [commitLoop] at h
    split at h
    · exact absurd (congrArg Prod.fst h) (by simp)
    · split at h
      · exact absurd (congrArg Prod.fst h) (by simp)
      · split at h
        · obtain ⟨d, hd, hsub⟩ := ih _ _ _ _ _ _ h
          refine ⟨c.path :: d, ?_, ?_⟩
          · simpa [List.append_assoc] using hd
          · simpa using hsub.cons₂ c.path
        · obtain ⟨d, hd, hsub⟩ := ih _ _ _ _ _ _ h
          exact ⟨d, hd, by simpa using hsub.cons c.path⟩

theorem commitLoop_ok_trace (env : Env) :
    ∀ (changes : List FileChange) (k : Nat) (c0 : Option String)
      (ch0 : List String) (tr0 : List Call) (out : Option String × List String)
      (tr : List Call),
      commitLoop env changes k c0 ch0 tr0 = (.ok out, tr) →
      tr = tr0 ++ commitCallsSpec env changes := by
  intro changes
  induction changes with
  | nil =>
    intro k c0 ch0 tr0 out tr h
    simp only [commitLoop, Prod.mk.injEq, Except.ok.injEq] at h
    obtain ⟨-, rfl⟩ := h
    simp [commitCallsSpec]
  | cons c rest ih =>
    intro k c0 ch0 tr0 out tr h
    simp only [commitLoop] at h
    by_cases hu : c.action = "update"
    · rw [if_pos hu] at h
      rcases hgf : env.get_file_content c.path with e | ⟨cont, sha⟩ <;>
        rw [hgf] at h <;> dsimp only at h
      · exact absurd (congrArg Prod.fst h) (by simp)
      · rcases hcr : env.create_or_update_file k with e | newCommit <;>
          rw [hcr] at h <;> dsimp only at h
        · exact absurd (congrArg Prod.fst h) (by simp)
        · cases newCommit <;> dsimp only at h <;>
          · have := ih _ _ _ _ _ _ h
            simp only [commitCallsSpec, if_pos hu, probeSha, hgf, this]
            simp [List.append_assoc]
    · rw [if_neg hu] at h
      dsimp only at h
      rcases hcr : env.create_or_update_file k with e | newCommit <;>
        rw [hcr] at h <;> dsimp only at h
      · exact absurd (congrArg Prod.fst h) (by simp)
      · cases newCommit <;> dsimp only at h <;>
        · have := ih _ _ _ _ _ _ h
          simp only [commitCallsSpec, if_neg hu, this]
          simp [List.append_assoc]

theorem commitLoop_trace_extend (env : Env) :
    ∀ (changes : List FileChange) (k : Nat) (c0 : Option String)
      (ch0 : List String) (tr0 : List Call) (res : Except String (Option String × List String))
      (tr : List Call),
      commitLoop env changes k c0 ch0 tr0 = (res, tr) →
      ∃ d, tr = tr0 ++ d ∧ ∀ x ∈ d, isCommitCall x := by
  intro changes
  induction changes with
  | nil =>
    intro k c0 ch0 tr0 res tr h
    simp only [commitLoop, Prod.mk.injEq] at h
    obtain ⟨-, rfl⟩ := h
    exact ⟨[], by simp⟩
  | cons c rest ih =>
    intro k c0 ch0 tr0 res tr h
    simp only [commitLoop] at h
    by_cases hu : c.action = "update"
    · rw [if_pos hu] at h
      rcases hgf : env.get_file_content c.path with e | ⟨cont, sha⟩ <;>
        rw [hgf] at h <;> dsimp only at h
      · injection h with h1 h2
        subst h2
        exact ⟨[.getFileContent c.path], rfl, by simp [isCommitCall]⟩
      · rcases hcr : env.create_or_update_file k with e | newCommit <;>
          rw [hcr] at h <;> dsimp only at h
        · injection h with h1 h2
          subst h2
          exact ⟨[.getFileContent c.path, .commitFile c.path sha], by
            simp [List.append_assoc], by simp [isCommitCall]⟩
        · cases newCommit <;> dsimp only at h <;>
          · obtain ⟨d, hd, hall⟩ := ih _ _ _ _ _ _ h
            refine ⟨[.getFileContent c.path, .commitFile c.path sha] ++ d,
              by simp [hd, List.append_assoc], ?_⟩
            intro x hx
            rcases List.mem_append.1 hx with hx | hx
            · rcases List.mem_cons.1 hx with rfl | hx
              · trivial
              · rcases List.mem_singleton.1 hx with rfl
                trivial
            · exact hall x hx
    · rw [if_neg hu] at h
      dsimp only at h
      rcases hcr : env.create_or_update_file k with e | newCommit <;>
        rw [hcr] at h <;> dsimp only at h
      · injection h with h1 h2
        subst h2
        exact ⟨[.commitFile c.path none], rfl, by simp [isCommitCall]⟩
      · cases newCommit <;> dsimp only at h <;>
        · obtain ⟨d, hd, hall⟩ := ih _ _ _ _ _ _ h
          refine ⟨[.commitFile c.path none] ++ d,
            by simp [hd, List.append_assoc], ?_⟩
          intro x hx
          rcases List.mem_append.1 hx with hx | hx
          · rcases List.mem_singleton.1 hx with rfl
            trivial
          · exact hall x hx

theorem executeAfterBranch_ok_cases
    (user : User) (prompt : String) (cp : Bool) (pn : Option Nat) (env : Env)
    (rfn db bn : String) (tr0 : List Call) (r : WorkflowResult) (tr : List Call)
    (h : executeAfterBranch user prompt cp pn env rfn db bn tr0 = (.ok r, tr)) :
    r = failRes "No changes committed" "No files could be modified" ∨
    (r.success = true ∧ r.branch = some bn ∧
      ∃ edits s ns cf, computeChanges user prompt env = .ok (edits, s, ns) ∧
        r.changed_files = some cf ∧ cf ≠ [] ∧
        cf.Sublist (edits.map FileChange.path)) := by
  simp only [executeAfterBranch] at h
  split at h
  · exact absurd (congrArg Prod.fst h) (by simp)
  · split at h
    · exact absurd (congrArg Prod.fst h) (by simp)
    · rename_i edits s ns hcc
      split at h
      · exact absurd (congrArg Prod.fst h) (by simp)
      · rename_i commit changed tr' hcl
        split at h
        · rename_i hE
          injection h with h1 h2
          injection h1 with h1
          exact Or.inl h1.symm
        · rename_i hE
          have hne : changed ≠ [] := by
            simpa [List.isEmpty_iff] using hE
          obtain ⟨d, hd, hsub⟩ := commitLoop_ok_sublist env _ _ _ _ _ _ _ hcl
          simp only [List.nil_append] at hd
          have hcf : changed.Sublist (edits.map FileChange.path) := by
            rw [show changed = d from hd]
            exact hsub
          split at h
          · injection h with h1 h2
            injection h1 with h1
            subst h1
            exact Or.inr ⟨rfl, rfl, edits, s, ns, changed, hcc, rfl, hne, hcf⟩
          · split at h
            · split at h
              · exact absurd (congrArg Prod.fst h) (by simp)
              · injection h with h1 h2
                injection h1 with h1
                subst h1
                exact Or.inr ⟨rfl, rfl, edits, s, ns, changed, hcc, rfl, hne, hcf⟩
            · injection h with h1 h2
              injection h1 with h1
              subst h1
              exact Or.inr ⟨rfl, rfl, edits, s, ns, changed, hcc, rfl, hne, hcf⟩

theorem isCommitCall_notCreateBranch (x : Call) (h : isCommitCall x) :
    notCreateBranch x := by
  cases x <;> simp_all [isCommitCall, notCreateBranch]

theorem executeAfterBranch_trace
    (user : User) (prompt : String) (cp : Bool) (pn : Option Nat) (env : Env)
    (rfn db bn : String) (tr0 : List Call)
    (res : Except String WorkflowResult) (tr : List Call)
    (h : executeAfterBranch user prompt cp pn env rfn db bn tr0 = (res, tr)) :
    ∃ d, tr = tr0 ++ d ∧ ∀ x ∈ d, notCreateBranch x := by
  simp only [executeAfterBranch] at h
  have hmem : ∀ (base dc dpr : List Call),
      (∀ x ∈ base, notCreateBranch x) → (∀ x ∈ dc, isCommitCall x) →
      (∀ x ∈ dpr, x = Call.createPR) →
      ∀ x ∈ base ++ dc ++ dpr, notCreateBranch x := by
    intro base dc dpr hb hc hp x hx
    simp only [List.mem_append] at hx
    rcases hx with (hx | hx) | hx
    · exact hb x hx
    · exact isCommitCall_notCreateBranch x (hc x hx)
    · rw [hp x hx]; simp [notCreateBranch]
  have hbase0 : ∀ x ∈ [Call.getTree, Call.aiCall], notCreateBranch x := by
    intro x hx
    rcases List.mem_cons.1 hx with rfl | hx
    · simp [notCreateBranch]
    · rcases List.mem_singleton.1 hx with rfl
      simp [notCreateBranch]
  have hbase1 : ∀ x ∈ [Call.getTree], notCreateBranch x := by
    intro x hx
    rcases List.mem_singleton.1 hx with rfl
    simp [notCreateBranch]
  split at h
  · -- env.get_tree raised
    injection h with h1 h2
    subst h2
    exact ⟨[Call.getTree], rfl, hbase1⟩
  · by_cases hai : (pyTruthyStr user.api_keys.anthropic_key ||
        pyTruthyStr user.api_keys.openai_key) = true <;>
      simp only [hai, if_true, if_false, Bool.false_eq_true] at h
    · split at h
      · injection h with h1 h2
        subst h2
        exact ⟨[Call.getTree, Call.aiCall], by simp, hbase0⟩
      · split at h
        · rename_i e tr' hcl
          obtain ⟨dc, hdc, hall⟩ := commitLoop_trace_extend env _ _ _ _ _ _ _ hcl
          injection h with h1 h2
          subst h2
          exact ⟨[Call.getTree, Call.aiCall] ++ dc ++ [],
            by simp [hdc, List.append_assoc], hmem _ _ _ hbase0 hall (by simp)⟩
        · rename_i commit changed tr' hcl
          obtain ⟨dc, hdc, hall⟩ := commitLoop_trace_extend env _ _ _ _ _ _ _ hcl
          split at h
          · injection h with h1 h2
            subst h2
            exact ⟨[Call.getTree, Call.aiCall] ++ dc ++ [],
              by simp [hdc, List.append_assoc], hmem _ _ _ hbase0 hall (by simp)⟩
          · split at h
            · injection h with h1 h2
              subst h2
              exact ⟨[Call.getTree, Call.aiCall] ++ dc ++ [],
                by simp [hdc, List.append_assoc], hmem _ _ _ hbase0 hall (by simp)⟩
            · split at h
              · split at h <;>
                · injection h with h1 h2
                  subst h2
                  exact ⟨[Call.getTree, Call.aiCall] ++ dc ++ [Call.createPR],
                    by simp [hdc, List.append_assoc],
                    hmem _ _ _ hbase0 hall (by simp)⟩
              · injection h with h1 h2
                subst h2
                exact ⟨[Call.getTree, Call.aiCall] ++ dc ++ [],
                  by simp [hdc, List.append_assoc], hmem _ _ _ hbase0 hall (by simp)⟩
    · split at h
      · injection h with h1 h2
        subst h2
        exact ⟨[Call.getTree], by simp, hbase1⟩
      · split at h
        · rename_i e tr' hcl
          obtain ⟨dc, hdc, hall⟩ := commitLoop_trace_extend env _ _ _ _ _ _ _ hcl
          injection h with h1 h2
          subst h2
          exact ⟨[Call.getTree] ++ dc ++ [],
            by simp [hdc, List.append_assoc], hmem _ _ _ hbase1 hall (by simp)⟩
        · rename_i commit changed tr' hcl
          obtain ⟨dc, hdc, hall⟩ := commitLoop_trace_extend env _ _ _ _ _ _ _ hcl
          split at h
          · injection h with h1 h2
            subst h2
            exact ⟨[Call.getTree] ++ dc ++ [],
              by simp [hdc, List.append_assoc], hmem _ _ _ hbase1 hall (by simp)⟩
          · split at h
            · injection h with h1 h2
              subst h2
              exact ⟨[Call.getTree] ++ dc ++ [],
                by simp [hdc, List.append_assoc], hmem _ _ _ hbase1 hall (by simp)⟩
            · split at h
              · split at h <;>
                · injection h with h1 h2
                  subst h2
                  exact ⟨[Call.getTree] ++ dc ++ [Call.createPR],
                    by simp [hdc, List.append_assoc],
                    hmem _ _ _ hbase1 hall (by simp)⟩
              · injection h with h1 h2
                subst h2
                exact ⟨[Call.getTree] ++ dc ++ [],
                  by simp [hdc, List.append_assoc], hmem _ _ _ hbase1 hall (by simp)⟩

theorem execute_ok_master (user : User) (prompt : String) (cp : Bool)
    (eb : Option String) (pn : Option Nat) (env : Env)
    (r : WorkflowResult) (tr : List Call)
    (h : execute user prompt cp eb pn env = .ok (r, tr)) :
    (∃ m e, r = failRes m e) ∨
    (r.success = true ∧
      (∀ b, eb = some b → r.branch = some b) ∧
      ∃ edits s ns cf, computeChanges user prompt env = .ok (edits, s, ns) ∧
        r.changed_files = some cf ∧ cf ≠ [] ∧
        cf.Sublist (edits.map FileChange.path)) := by
  unfold execute at h
  split at h
  · injection h with h1
    injection h1 with h1 h2
    exact Or.inl ⟨_, _, h1.symm⟩
  · split at h
    · injection h with h1
      injection h1 with h1 h2
      exact Or.inl ⟨_, _, h1.symm⟩
    · dsimp only at h
      split at h
      · rename_i owner rn hsp
        split at h
        · rename_i r' tr' hb
          injection h with h1
          injection h1 with h1 h2
          subst h1
          subst h2
          -- walk executeBody
          simp only [executeBody] at hb
          split at hb
          · exact absurd (congrArg Prod.fst hb) (by simp)
          · injection hb with hb1 hb2
            injection hb1 with hb1
            exact Or.inl ⟨_, _, hb1.symm⟩
          · split at hb
            · exact absurd (congrArg Prod.fst hb) (by simp)
            · injection hb with hb1 hb2
              injection hb1 with hb1
              exact Or.inl ⟨_, _, hb1.symm⟩
            · split at hb
              · rename_i bn
                rcases executeAfterBranch_ok_cases _ _ _ _ _ _ _ _ _ _ _ hb with
                  hc | ⟨hs, hbr, rest⟩
                · exact Or.inl ⟨_, _, hc⟩
                · refine Or.inr ⟨hs, ?_, rest⟩
                  intro b hbb
                  injection hbb with hbb
                  rw [hbr, hbb]
              · split at hb
                · exact absurd (congrArg Prod.fst hb) (by simp)
                · injection hb with hb1 hb2
                  injection hb1 with hb1
                  exact Or.inl ⟨_, _, hb1.symm⟩
                · rcases executeAfterBranch_ok_cases _ _ _ _ _ _ _ _ _ _ _ hb with
                    hc | ⟨hs, hbr, rest⟩
                  · exact Or.inl ⟨_, _, hc⟩
                  · refine Or.inr ⟨hs, ?_, rest⟩
                    intro b hbb
                    simp at hbb
        · injection h with h1
          injection h1 with h1 h2
          exact Or.inl ⟨_, _, h1.symm⟩
      · cases h

theorem executeBody_some_branch_trace (user : User) (prompt : String) (cp : Bool)
    (b : String) (pn : Option Nat) (env : Env) (rfn : String)
    (res : Except String WorkflowResult) (tr : List Call)
    (h : executeBody user prompt cp (some b) pn env rfn = (res, tr)) :
    ∀ n, Call.createBranch n ∉ tr := by
  simp only [executeBody] at h
  split at h
  · injection h with h1 h2
    subst h2
    simp
  · injection h with h1 h2
    subst h2
    simp
  · split at h
    · injection h with h1 h2
      subst h2
      simp
    · injection h with h1 h2
      subst h2
      simp
    · obtain ⟨d, hd, hall⟩ := executeAfterBranch_trace _ _ _ _ _ _ _ _ _ _ _ h
      subst hd
      intro n hn
      rcases List.mem_append.1 hn with hn | hn
      · simp at hn
      · exact hall _ hn n rfl

theorem execute_total (user : User) (prompt : String) (cp : Bool)
    (eb : Option String) (pn : Option Nat) (env : Env)
    (hv : user.github.is_connected = false ∨
          pyTruthyStr user.github.selected_repo = false ∨
          (pySplitChar '/' (user.github.selected_repo.getD "")).length = 2) :
    ∃ r tr, execute user prompt cp eb pn env = .ok (r, tr) := by
  cases hic : user.github.is_connected with
  | false =>
    exact ⟨failRes "GitHub not connected" "Connect GitHub first with /github", [],
      by simp [execute, hic]⟩
  | true =>
    cases hrt : pyTruthyStr user.github.selected_repo with
    | false =>
      exact ⟨failRes "No repository selected" "Select a repo first with /repos", [],
        by simp [execute, hic, hrt]⟩
    | true =>
      have hlen : (pySplitChar '/' (user.github.selected_repo.getD "")).length = 2 := by
        rcases hv with hv | hv | hv
        · rw [hic] at hv; cases hv
        · rw [hrt] at hv; cases hv
        · exact hv
      rcases hsp : pySplitChar '/' (user.github.selected_repo.getD "") with
        _ | ⟨a, _ | ⟨c, _ | ⟨e, rest⟩⟩⟩
      · simp [hsp] at hlen
      · simp [hsp] at hlen
      · rcases hbody : executeBody user prompt cp eb pn env
          (user.github.selected_repo.getD "") with ⟨res, trb⟩
        cases res with
        | ok w => exact ⟨w, trb, by simp [execute, hic, hrt, hsp, hbody]⟩
        | error e =>
          exact ⟨failRes "Workflow failed" e, trb,
            by simp [execute, hic, hrt, hsp, hbody]⟩
      · simp [hsp] at hlen

/-! ## Streaming-event lemmas -/

/-- The growth discipline of successive `writing_file` events: starting from
the already-discovered list `fd`, each event appends exactly one
previously-unseen path and carries the cumulative snapshot, ending in the
final list `fd1`. -/
def pairwiseGrowTo : List String → List StreamingUpdate → List String → Prop
  | fd, [], fd1 => fd1 = fd
  | fd, e :: rest, fd1 =>
    ∃ f, f ∉ fd ∧
      e = { status := "writing_file", current_file := some f,
            files_so_far := some (fd ++ [f]), partial_text := none } ∧
      pairwiseGrowTo (fd ++ [f]) rest fd1

theorem pairwiseGrowTo_append {e1 : List StreamingUpdate} :
    ∀ {fd fd1 fd2 : List String} {e2 : List StreamingUpdate},
      pairwiseGrowTo fd e1 fd1 → pairwiseGrowTo fd1 e2 fd2 →
      pairwiseGrowTo fd (e1 ++ e2) fd2 := by
  induction e1 with
  | nil =>
    intro fd fd1 fd2 e2 h1 h2
    cases h1
    simpa using h2
  | cons e rest ih =>
    intro fd fd1 fd2 e2 h1 h2
    obtain ⟨f, hf, he, hrest⟩ := h1
    exact ⟨f, hf, he, ih hrest h2⟩

theorem pairwiseGrowTo_status {evs : List StreamingUpdate} :
    ∀ {fd fd1 : List String}, pairwiseGrowTo fd evs fd1 →
      ∀ e ∈ evs, e.status = "writing_file" := by
  induction evs with
  | nil => intro fd fd1 _ e he; cases he
  | cons e rest ih =>
    intro fd fd1 h x hx
    obtain ⟨f, hf, he, hrest⟩ := h
    rcases List.mem_cons.1 hx with rfl | hx
    · rw [he]
    · exact ih hrest x hx

theorem emitNew_growTo (newFiles : List String) :
    ∀ fd, pairwiseGrowTo fd (emitNew fd newFiles).2 (emitNew fd newFiles).1 := by
  induction newFiles with
  | nil => intro fd; simp [emitNew, pairwiseGrowTo]
  | cons f fs ih =>
    intro fd
    by_cases hf : f ∈ fd
    · simpa [emitNew, hf] using ih fd
    · rcases he : emitNew (fd ++ [f]) fs with ⟨fd2, evs⟩
      have := ih (fd ++ [f])
      rw [he] at this
      simp only [emitNew, hf, if_neg, ite_false, he]
      exact ⟨f, hf, rfl, this⟩

theorem scanStep_growTo (st : ScanState) (text : String) :
    pairwiseGrowTo st.files_detected (scanStep st text).2
      (scanStep st text).1.files_detected := by
  rcases he : emitNew st.files_detected
      (findPaths ((st.full_content ++ text).drop st.last_update_len)) with ⟨fd2, evs⟩
  have := emitNew_growTo
    (findPaths ((st.full_content ++ text).drop st.last_update_len)) st.files_detected
  rw [he] at this
  simpa [scanStep, he] using this

theorem anthLoop_growTo (lines : List AnthLine) :
    ∀ st : ScanState,
      pairwiseGrowTo st.files_detected (anthLoop st lines).2.1
        (anthLoop st lines).1.files_detected := by
  induction lines with
  | nil => intro st; simp [anthLoop, pairwiseGrowTo]
  | cons l ls ih =>
    intro st
    cases l with
    | doneMarker => simp [anthLoop, pairwiseGrowTo]
    | notData raw => simpa [anthLoop] using ih st
    | badJson => simpa [anthLoop] using ih st
    | event t dt dtext =>
      by_cases hc : (t = some "content_block_delta" && dt = some "text_delta") = true
      · rcases hs : scanStep st (dtext.getD "") with ⟨st', evs⟩
        rcases hl : anthLoop st' ls with ⟨st'', evs2, br⟩
        have h1 := scanStep_growTo st (dtext.getD "")
        rw [hs] at h1
        have h2 := ih st'
        rw [hl] at h2
        simp only [anthLoop, hc, if_true, hs, hl]
        exact pairwiseGrowTo_append h1 h2
      · simp only [anthLoop, hc, if_false, Bool.false_eq_true]
        exact ih st

theorem oaiLoop_growTo (lines : List OaiLine) :
    ∀ st : ScanState,
      pairwiseGrowTo st.files_detected (oaiLoop st lines).2.1
        (oaiLoop st lines).1.files_detected := by
  induction lines with
  | nil => intro st; simp [oaiLoop, pairwiseGrowTo]
  | cons l ls ih =>
    intro st
    cases l with
    | doneMarker => simp [oaiLoop, pairwiseGrowTo]
    | notData raw => simpa [oaiLoop] using ih st
    | badJson => simpa [oaiLoop] using ih st
    | event c =>
      match c with
      | none => simpa [oaiLoop] using ih st
      | some none => simpa [oaiLoop] using ih st
      | some (some t) =>
        by_cases ht : t = ""
        · simpa [oaiLoop, ht] using ih st
        · rcases hs : scanStep st t with ⟨st', evs⟩
          rcases hl : oaiLoop st' ls with ⟨st'', evs2, br⟩
          have h1 := scanStep_growTo st t
          rw [hs] at h1
          have h2 := ih st'
          rw [hl] at h2
          simp only [oaiLoop]
          rw [if_pos ht]
          simp only [hs, hl]
          exact pairwiseGrowTo_append h1 h2

/-! ## Concrete fixtures for witnesses and counterexamples -/

/-- A user with a GitHub connection, a selected repo and an Anthropic key. -/
def demoUser : User :=
  { github := { access_token := some "tok", selected_repo := some "o/r" },
    api_keys := { anthropic_key := some "k" }, settings := {} }

/-- The same user without any AI credential. -/
def demoUserNoKeys : User :=
  { github := { access_token := some "tok", selected_repo := some "o/r" },
    api_keys := {}, settings := {} }

/-- A fully cooperative environment: every repository call succeeds and the
AI call yields two file edits. -/
def demoEnv : Env :=
  { get_repo := .ok (some "main"),
    get_branch_sha := .ok (some "abc123"),
    create_branch := .ok true,
    get_tree := .ok (some []),
    get_file_content := fun _ => .ok (some "old", some "sha0"),
    create_or_update_file := fun _ => .ok (some "c1"),
    create_pull_request := .ok (some "https://github.com/o/r/pull/7"),
    anthropic_result := ([⟨"a.py", "print(1)", "create"⟩, ⟨"b.py", "print(2)", "update"⟩],
      none, none),
    openai_result := ([], none, none),
    branch_ts := "01020304", branch_rand := "ab12",
    fallback_ts := "20260101_000000" }

/-- The result of the happy-path continuation run on `demoEnv`. -/
def demoRunResult : WorkflowResult :=
  { success := true, message := "Changes pushed successfully!",
    commit_sha := some "c1", commit_url := some "https://github.com/o/r/commit/c1",
    pr_url := some "https://github.com/o/r/pull/7", branch := some "feat",
    changed_files := some ["a.py", "b.py"] }

/-- The call trace of the happy-path continuation run on `demoEnv`. -/
def demoRunTrace : List Call :=
  [Call.getRepo, Call.getBranchSha, Call.getTree, Call.aiCall,
   Call.commitFile "a.py" none, Call.getFileContent "b.py",
   Call.commitFile "b.py" (some "sha0"), Call.createPR]

/-- A `json.loads` oracle that rejects everything. -/
def loadsNone : String → Option Json := fun _ => none

/-! ## C1 -/

/-- C1: for every run that returns (does not raise), the returned result has
`success = true` exactly when its list of committed paths is present and
non-empty; every failure return carries `success = false` (and, by
construction of the failure results, no committed paths). -/
theorem c1_success_iff_committed (user : User) (prompt : String) (cp : Bool)
    (eb : Option String) (pn : Option Nat) (env : Env)
    (r : WorkflowResult) (tr : List Call)
    (h : execute user prompt cp eb pn env = .ok (r, tr)) :
    r.success = true ↔ ∃ cf, r.changed_files = some cf ∧ cf ≠ [] := by
  rcases execute_ok_master _ _ _ _ _ _ _ _ h with
    ⟨m, e, rfl⟩ | ⟨hs, -, -, -, -, cf, -, hcf, hne, -⟩
  · constructor
    · intro hs
      exact absurd hs (by simp [failRes])
    · rintro ⟨cf, hcf, -⟩
      exact absurd hcf (by simp [failRes])
  · exact ⟨fun _ => ⟨cf, hcf, hne⟩, fun _ => hs⟩

/-- C1 witness: the happy-path continuation run. -/
theorem c1_success_iff_committed_witness :
    execute demoUser "Add login page" true (some "feat") none demoEnv =
      .ok (demoRunResult, demoRunTrace) ∧
    (demoRunResult.success = true ↔
      ∃ cf, demoRunResult.changed_files = some cf ∧ cf ≠ []) := by
  have h : execute demoUser "Add login page" true (some "feat") none demoEnv =
      .ok (demoRunResult, demoRunTrace) := rfl
  exact ⟨h, c1_success_iff_committed _ _ _ _ _ _ _ _ h⟩

/-! ## C2 -/

/-- Environment in which the repository lookup reports "not found". -/
def envRepoMissing : Env := { demoEnv with get_repo := .ok none }

/-- C2 counterexample: a continuation run (`existing_branch = some "feat"`)
that fails at the repo-resolution step returns a result whose `branch` field
is `None`, not the supplied `existing_branch`, so "the branch field of the
returned WorkflowResult equals existing_branch" is false for this run (no
branch-creation call is issued, but the second conjunct of the claim
fails). -/
theorem c2_counterexample :
    execute demoUser "p" true (some "feat") none envRepoMissing =
      .ok (failRes "Repository not found" "Could not access o/r", [Call.getRepo]) ∧
    (failRes "Repository not found" "Could not access o/r").branch ≠ some "feat" :=
  ⟨rfl, by simp [failRes]⟩

/-- C2 (amended): for every run with `existing_branch` set, no
branch-creation call is ever issued, and whenever the run succeeds the
`branch` field of the result equals `existing_branch` (a failed run reports
`branch = None`). -/
theorem c2_branch_reuse (user : User) (prompt : String) (cp : Bool)
    (b : String) (pn : Option Nat) (env : Env)
    (r : WorkflowResult) (tr : List Call)
    (h : execute user prompt cp (some b) pn env = .ok (r, tr)) :
    (∀ n, Call.createBranch n ∉ tr) ∧ (r.success = true → r.branch = some b) := by
  constructor
  · intro n
    unfold execute at h
    split at h
    · injection h with h1
      injection h1 with h1 h2
      subst h2
      simp
    · split at h
      · injection h with h1
        injection h1 with h1 h2
        subst h2
        simp
      · dsimp only at h
        split at h
        · split at h
          · rename_i r' tr' hbody
            injection h with h1
            injection h1 with h1 h2
            subst h2
            exact executeBody_some_branch_trace _ _ _ _ _ _ _ _ _ hbody n
          · rename_i e tr' hbody
            injection h with h1
            injection h1 with h1 h2
            subst h2
            exact executeBody_some_branch_trace _ _ _ _ _ _ _ _ _ hbody n
        · cases h
  · intro hs
    rcases execute_ok_master _ _ _ _ _ _ _ _ h with ⟨m, e, rfl⟩ | ⟨-, hb, -⟩
    · exact absurd hs (by simp [failRes])
    · exact hb b rfl

/-- C2 witness: the happy-path continuation run reuses branch `feat` and its
trace contains no branch-creation call. -/
theorem c2_branch_reuse_witness :
    (∀ n, Call.createBranch n ∉ demoRunTrace) ∧
    (demoRunResult.success = true → demoRunResult.branch = some "feat") :=
  c2_branch_reuse demoUser "Add login page" true "feat" none demoEnv
    demoRunResult demoRunTrace rfl

/-! ## C3 -/

/-- C3: the committed-paths list of every returning run is a subsequence, in
order, of the paths of the edit list the run produced (failed individual
commits are skipped without reordering). -/
theorem c3_commit_order (user : User) (prompt : String) (cp : Bool)
    (eb : Option String) (pn : Option Nat) (env : Env)
    (edits : List FileChange) (s ns : Option Json)
    (r : WorkflowResult) (tr : List Call) (cf : List String)
    (h1 : computeChanges user prompt env = .ok (edits, s, ns))
    (_hne : edits ≠ [])
    (h3 : execute user prompt cp eb pn env = .ok (r, tr))
    (h4 : r.changed_files = some cf) :
    cf.Sublist (edits.map FileChange.path) := by
  rcases execute_ok_master _ _ _ _ _ _ _ _ h3 with
    ⟨m, e, rfl⟩ | ⟨-, -, edits', s', ns', cf', hc', hcf', -, hsub⟩
  · exact absurd h4 (by simp [failRes])
  · have he : (edits, s, ns) = (edits', s', ns') := by
      have := h1.symm.trans hc'
      injection this
    obtain ⟨he1, -⟩ := Prod.mk.injEq .. ▸ he
    have hcfe : cf = cf' := by
      have := h4.symm.trans hcf'
      injection this
    rw [hcfe, he1]
    exact hsub

/-- C3 witness: a run whose second commit fails still reports the surviving
path list `["a.py"]`, a subsequence of `["a.py", "b.py"]`. -/
theorem c3_commit_order_witness :
    ["a.py"].Sublist
      (([⟨"a.py", "print(1)", "create"⟩,
         (⟨"b.py", "print(2)", "update"⟩ : FileChange)]).map FileChange.path) :=
  c3_commit_order demoUser "p" true (some "feat") none
    { demoEnv with create_or_update_file := fun k => if k = 0 then .ok (some "c1") else .ok none }
    [⟨"a.py", "print(1)", "create"⟩, ⟨"b.py", "print(2)", "update"⟩] none none
    { success := true, message := "Changes pushed successfully!",
      commit_sha := none, commit_url := none,
      pr_url := some "https://github.com/o/r/pull/7", branch := some "feat",
      changed_files := some ["a.py"] }
    [Call.getRepo, Call.getBranchSha, Call.getTree, Call.aiCall,
     Call.commitFile "a.py" none, Call.getFileContent "b.py",
     Call.commitFile "b.py" (some "sha0"), Call.createPR]
    ["a.py"] rfl (by simp) rfl rfl

/-- Filtering helpers for event lists whose middle is all `writing_file`. -/
theorem filter_status_all_writing (evs : List StreamingUpdate)
    (hw : ∀ e ∈ evs, e.status = "writing_file") :
    List.filter (fun e => decide (e.status = "done")) evs = [] ∧
    List.filter (fun e => decide (e.status = "writing_file")) evs = evs := by
  induction evs with
  | nil => simp
  | cons e rest ih =>
    have he := hw e (List.mem_cons_self e rest)
    obtain ⟨ih1, ih2⟩ := ih (fun x hx => hw x (List.mem_cons_of_mem _ hx))
    constructor
    · simp [List.filter_cons, he, ih1]
    · simp [List.filter_cons, he, ih2]

theorem filter_done_full (evs : List StreamingUpdate) (fd : List String)
    (hw : ∀ e ∈ evs, e.status = "writing_file") :
    List.filter (fun e => decide (e.status = "done"))
      ((thinkingEv :: evs) ++ [doneEv fd]) = [doneEv fd] := by
  simp [List.filter_cons, List.filter_append, thinkingEv, doneEv,
    (filter_status_all_writing evs hw).1]

theorem filter_done_mid (evs : List StreamingUpdate)
    (hw : ∀ e ∈ evs, e.status = "writing_file") :
    List.filter (fun e => decide (e.status = "done")) (thinkingEv :: evs) = [] := by
  simp [List.filter_cons, thinkingEv, (filter_status_all_writing evs hw).1]

theorem filter_writing_full (evs : List StreamingUpdate) (fd : List String)
    (hw : ∀ e ∈ evs, e.status = "writing_file") :
    List.filter (fun e => decide (e.status = "writing_file"))
      ((thinkingEv :: evs) ++ [doneEv fd]) = evs := by
  simp [List.filter_cons, List.filter_append, thinkingEv, doneEv,
    (filter_status_all_writing evs hw).2]

theorem filter_writing_mid (evs : List StreamingUpdate)
    (hw : ∀ e ∈ evs, e.status = "writing_file") :
    List.filter (fun e => decide (e.status = "writing_file")) (thinkingEv :: evs) = evs := by
  simp [List.filter_cons, thinkingEv, (filter_status_all_writing evs hw).2]

/-! ## C4 -/

/-- C4 counterexample: a streamed call whose provider answers with a
non-success status (429) emits no events at all — in particular no `Done`
event — so "a Done event is emitted exactly once per run ... including runs
where the provider returns a non-success status" is false. -/
theorem c4_counterexample :
    (call_anthropic_streaming loadsNone 429 [] none).1 = [] ∧
    ((call_anthropic_streaming loadsNone 429 [] none).1.filter
      (fun e => e.status = "done")).length ≠ 1 :=
  ⟨rfl, by decide⟩

/-- C4 (amended): on a streamed call whose provider answers with a success
status and whose stream is consumed without a mid-stream exception, the
first event is `Thinking` (hence it precedes every `FileDiscovered`), and a
`Done` event is emitted exactly once, as the last event.  When the provider
answers with a non-success status, no event at all is emitted; when the
iterator raises mid-stream (without a `[DONE]` sentinel), no `Done` event is
emitted.  Both provider clients behave identically. -/
theorem c4_stream_event_order :
    (∀ (loads : String → Option Json) (lines : List AnthLine),
      (call_anthropic_streaming loads 200 lines none).1.head? = some thinkingEv ∧
      (call_anthropic_streaming loads 200 lines none).1.getLast? =
        some (doneEv (anthLoop ⟨"", [], 0⟩ lines).1.files_detected) ∧
      ((call_anthropic_streaming loads 200 lines none).1.filter
        (fun e => e.status = "done")).length = 1) ∧
    (∀ (loads : String → Option Json) (lines : List OaiLine),
      (call_openai_streaming loads 200 lines none).1.head? = some thinkingEv ∧
      (call_openai_streaming loads 200 lines none).1.getLast? =
        some (doneEv (oaiLoop ⟨"", [], 0⟩ lines).1.files_detected) ∧
      ((call_openai_streaming loads 200 lines none).1.filter
        (fun e => e.status = "done")).length = 1) ∧
    (∀ (loads : String → Option Json) (status : Nat) (lines : List AnthLine)
       (exn : Option String), status ≠ 200 →
      (call_anthropic_streaming loads status lines exn).1 = []) ∧
    (∀ (loads : String → Option Json) (status : Nat) (lines : List OaiLine)
       (exn : Option String), status ≠ 200 →
      (call_openai_streaming loads status lines exn).1 = []) ∧
    (∀ (loads : String → Option Json) (lines : List AnthLine) (e : String),
      (anthLoop ⟨"", [], 0⟩ lines).2.2 = false →
      ((call_anthropic_streaming loads 200 lines (some e)).1.filter
        (fun ev => ev.status = "done")).length = 0) := by
  have hfa : ∀ (lines : List AnthLine),
      ∀ e ∈ (anthLoop ⟨"", [], 0⟩ lines).2.1, e.status = "writing_file" := by
    intro lines
    exact pairwiseGrowTo_status (anthLoop_growTo lines ⟨"", [], 0⟩)
  have hfo : ∀ (lines : List OaiLine),
      ∀ e ∈ (oaiLoop ⟨"", [], 0⟩ lines).2.1, e.status = "writing_file" := by
    intro lines
    exact pairwiseGrowTo_status (oaiLoop_growTo lines ⟨"", [], 0⟩)
  refine ⟨?_, ?_, ?_, ?_, ?_⟩
  · intro loads lines
    rcases hl : anthLoop ⟨"", [], 0⟩ lines with ⟨st, evs, broke⟩
    have hw := hfa lines
    rw [hl] at hw
    simp only [call_anthropic_streaming, hl]
    rw [if_neg (show ¬((200 : Nat) ≠ 200) from by decide)]
    rw [if_neg (show ¬(((none : Option String).isSome && !broke) = true) from by simp)]
    dsimp only
    dsimp only at hw
    refine ⟨rfl, ?_, ?_⟩
    · rw [List.getLast?_concat]
    · rw [filter_done_full evs st.files_detected hw]
      rfl
  · intro loads lines
    rcases hl : oaiLoop ⟨"", [], 0⟩ lines with ⟨st, evs, broke⟩
    have hw := hfo lines
    rw [hl] at hw
    simp only [call_openai_streaming, hl]
    rw [if_neg (show ¬((200 : Nat) ≠ 200) from by decide)]
    rw [if_neg (show ¬(((none : Option String).isSome && !broke) = true) from by simp)]
    dsimp only
    dsimp only at hw
    refine ⟨rfl, ?_, ?_⟩
    · rw [List.getLast?_concat]
    · rw [filter_done_full evs st.files_detected hw]
      rfl
  · intro loads status lines exn hs
    simp [call_anthropic_streaming, hs]
  · intro loads status lines exn hs
    simp [call_openai_streaming, hs]
  · intro loads lines e hb
    rcases hl : anthLoop ⟨"", [], 0⟩ lines with ⟨st, evs, broke⟩
    have hw := hfa lines
    rw [hl] at hw
    rw [hl] at hb
    dsimp only at hb
    subst hb
    simp only [call_anthropic_streaming, hl]
    rw [if_neg (show ¬((200 : Nat) ≠ 200) from by decide)]
    rw [if_pos (show (((some e : Option String)).isSome && !false) = true from by simp)]
    dsimp only
    dsimp only at hw
    rw [filter_done_mid evs hw]
    rfl

/-- C4 witness: concrete instances of the amended guarantee — a 404 run
emits nothing, an empty successful stream emits exactly one `Done`. -/
theorem c4_stream_event_order_witness :
    (call_anthropic_streaming loadsNone 404 [] none).1 = [] ∧
    ((call_anthropic_streaming loadsNone 200 [] none).1.filter
      (fun e => e.status = "done")).length = 1 :=
  ⟨c4_stream_event_order.2.2.1 loadsNone 404 [] none (by decide),
   (c4_stream_event_order.1 loadsNone []).2.2⟩

/-! ## C9 -/

/-- C9: in every streamed call (either provider, any status, any line
sequence, with or without a mid-stream exception), the `FileDiscovered`
(`writing_file`) events form a `pairwiseGrowTo` chain from `[]`: each event
appends exactly one previously-unseen path to the previous snapshot and
carries the cumulative list, so `files_so_far` grows strictly, never
shrinks or reorders, and a duplicate path never triggers a second event. -/
theorem c9_streaming_monotonicity (loads : String → Option Json) (status : Nat)
    (alines : List AnthLine) (olines : List OaiLine) (aexn oexn : Option String) :
    (∃ fd, pairwiseGrowTo []
      ((call_anthropic_streaming loads status alines aexn).1.filter
        (fun e => e.status = "writing_file")) fd) ∧
    (∃ fd, pairwiseGrowTo []
      ((call_openai_streaming loads status olines oexn).1.filter
        (fun e => e.status = "writing_file")) fd) := by
  constructor
  · by_cases hs : status ≠ 200
    · refine ⟨[], ?_⟩
      simp [call_anthropic_streaming, hs, pairwiseGrowTo]
    · rcases hl : anthLoop ⟨"", [], 0⟩ alines with ⟨st, evs, broke⟩
      have hg := anthLoop_growTo alines ⟨"", [], 0⟩
      rw [hl] at hg
      have hw := pairwiseGrowTo_status hg
      dsimp only at hw hg
      have hs' : status = 200 := not_ne_iff.mp hs
      subst hs'
      refine ⟨st.files_detected, ?_⟩
      simp only [call_anthropic_streaming, hl]
      rw [if_neg (show ¬((200 : Nat) ≠ 200) from by decide)]
      split
      · dsimp only
        rw [filter_writing_mid evs hw]
        exact hg
      · dsimp only
        rw [filter_writing_full evs st.files_detected hw]
        exact hg
  · by_cases hs : status ≠ 200
    · refine ⟨[], ?_⟩
      simp [call_openai_streaming, hs, pairwiseGrowTo]
    · rcases hl : oaiLoop ⟨"", [], 0⟩ olines with ⟨st, evs, broke⟩
      have hg := oaiLoop_growTo olines ⟨"", [], 0⟩
      rw [hl] at hg
      have hw := pairwiseGrowTo_status hg
      dsimp only at hw hg
      have hs' : status = 200 := not_ne_iff.mp hs
      subst hs'
      refine ⟨st.files_detected, ?_⟩
      simp only [call_openai_streaming, hl]
      rw [if_neg (show ¬((200 : Nat) ≠ 200) from by decide)]
      split
      · dsimp only
        rw [filter_writing_mid evs hw]
        exact hg
      · dsimp only
        rw [filter_writing_full evs st.files_detected hw]
        exact hg

/-! ## C5 -/

/-- The decoded JSON of one file entry. -/
def fileObjJson : Json :=
  .obj [("path", .str "a.txt"), ("content", .str "hi"), ("action", .str "create")]

/-- The decoded JSON of the full `{summary, next_steps, files}` response. -/
def fullObjJson : Json :=
  .obj [("summary", .str "s"), ("next_steps", .arr [.str "n"]),
        ("files", .arr [fileObjJson])]

/-- The full-object response text. -/
def fullObjStr : String :=
  "\x7b\"summary\": \"s\", \"next_steps\": [\"n\"], \"files\": [\x7b\"path\": \"a.txt\", \"content\": \"hi\", \"action\": \"create\"\x7d]\x7d"

/-- The legacy response text: the top-level JSON value is directly the list
of file objects. -/
def legacyListStr : String :=
  "[\x7b\"path\": \"a.txt\", \"content\": \"hi\", \"action\": \"create\"\x7d]"

/-- The full-object response wrapped in a markdown code fence. -/
def fencedStr : String := "```json\n" ++ fullObjStr ++ "\n```"

/-- `json.loads` restricted to the two demo documents (correct JSON
decodings of `fullObjStr` and `legacyListStr`). -/
def loadsDemo (s : String) : Option Json :=
  if s = fullObjStr then some fullObjJson
  else if s = legacyListStr then some (.arr [fileObjJson]) else none

/-- C5: the full-object shape and its code-fenced wrapping both parse to the
same single edit, but the legacy bare-list shape does **not** parse to the
same edits — `data.get("summary")` raises `AttributeError` on a list (the
`except` clause only catches `json.JSONDecodeError`), so the streaming
caller swallows the error and the edit list degenerates to `[]`.  The
`elif isinstance(data, list)` branch that the code's own comment ("Handle
both new format ... and old format (array directly)") advertises is
unreachable. -/
theorem c5_legacy_shape_crashes :
    parse_ai_response_with_meta loadsDemo fullObjStr =
      .ok ([{ path := "a.txt", content := "hi", action := "create" }],
           some (.str "s"), some (.arr [.str "n"])) ∧
    parse_ai_response_with_meta loadsDemo fencedStr =
      .ok ([{ path := "a.txt", content := "hi", action := "create" }],
           some (.str "s"), some (.arr [.str "n"])) ∧
    parse_ai_response_with_meta loadsDemo legacyListStr =
      .error "AttributeError: object has no attribute get" :=
  ⟨rfl, rfl, rfl⟩

/-! ## C6 -/

/-- Environment whose AI call completes with zero edits (e.g. after an
HTTP error swallowed by the streaming client). -/
def envNoEdits : Env := { demoEnv with anthropic_result := ([], none, none) }

/-- C6: the no-credential half of the claim holds (second conjunct: the
no-key user's run commits exactly the one trivial fallback edit and never
invokes the gateway), but the zero-edits half is false — with a credential
present and an AI call that yields zero edits, `_generate_ai_changes`
raises `ValueError` before the `if not changes` fallback (line 191) can
run, so the run terminates at the GenerateEdits step with
`success = false` instead of committing the fallback edit. -/
theorem c6_zero_edits_raises :
    execute demoUser "add a healthcheck endpoint" true (some "amadeus/x") none envNoEdits =
      .ok (failRes "Workflow failed" "AI returned no changes. Try a more specific request.",
        [Call.getRepo, Call.getBranchSha, Call.getTree, Call.aiCall]) ∧
    simple_file_creation "add a healthcheck endpoint" envNoEdits.fallback_ts ≠ [] ∧
    execute demoUserNoKeys "add a healthcheck endpoint" true (some "amadeus/x") none envNoEdits =
      .ok ({ success := true, message := "Changes pushed successfully!",
             commit_sha := some "c1",
             commit_url := some "https://github.com/o/r/commit/c1",
             pr_url := some "https://github.com/o/r/pull/7",
             branch := some "amadeus/x", changed_files := some ["a.txt"] },
        [Call.getRepo, Call.getBranchSha, Call.getTree,
         Call.commitFile "a.txt" none, Call.createPR]) :=
  ⟨rfl, by decide, rfl⟩

/-! ## C7 -/

/-- Environment in which every probed file exists with content hash "h". -/
def envProbed : Env :=
  { demoEnv with get_file_content := fun _ => .ok (some "old", some "h") }

/-- C7 counterexample: an edit with `action = "create"` for a path whose
current content exists (probing would return hash "h") is committed without
any probe and with no sha — the create-vs-update decision is taken from the
edit's `action` field supplied by the model, not by probing the file's
current content at commit time. -/
theorem c7_counterexample :
    commitLoop envProbed [{ path := "a.txt", content := "x", action := "create" }]
      0 none [] [] =
      (.ok (some "c1", ["a.txt"]), [Call.commitFile "a.txt" none]) ∧
    probeSha envProbed "a.txt" = some "h" ∧
    (none : Option String) ≠ some "h" :=
  ⟨rfl, rfl, by decide⟩

/-- C7 (amended): in every completed commit loop, the write call for an
edit with `action = "update"` is immediately preceded by a probe of that
path and carries exactly the probed sha, while the write call for any other
action performs no probe and carries no sha (the trace equals
`commitCallsSpec`). -/
theorem c7_update_sha_passing (env : Env) (changes : List FileChange) (k : Nat)
    (c0 : Option String) (ch0 : List String) (tr0 : List Call)
    (out : Option String × List String) (tr : List Call)
    (h : commitLoop env changes k c0 ch0 tr0 = (.ok out, tr)) :
    tr = tr0 ++ commitCallsSpec env changes :=
  commitLoop_ok_trace env changes k c0 ch0 tr0 out tr h

/-- C7 witness: one update edit and one create edit — the update's write
carries the probed sha `"h"`, the create's write carries none. -/
theorem c7_update_sha_passing_witness :
    [Call.getFileContent "u.txt", Call.commitFile "u.txt" (some "h"),
     Call.commitFile "c.txt" none] =
      [] ++ commitCallsSpec envProbed
        [{ path := "u.txt", content := "x", action := "update" },
         { path := "c.txt", content := "y", action := "create" }] :=
  c7_update_sha_passing envProbed
    [{ path := "u.txt", content := "x", action := "update" },
     { path := "c.txt", content := "y", action := "create" }]
    0 none [] [] (some "c1", ["u.txt", "c.txt"])
    [Call.getFileContent "u.txt", Call.commitFile "u.txt" (some "h"),
     Call.commitFile "c.txt" none] rfl

/-! ## C8 -/

/-- C8: an AI call that fails with HTTP 429 yields the empty triple, but the
run then ends with `success = false` and **zero** committed paths — the
`ValueError` raised by `_generate_ai_changes` on an empty edit list aborts
the run before the `amadeus_change_<timestamp>.md` fallback of
`_simple_file_creation` can be committed, contradicting the spec's
scenario (fallback committed, success = true, one committed path). -/
theorem c8_rate_limited_run_fails :
    (call_anthropic_streaming loadsNone 429 [] none).2 = ([], none, none) ∧
    execute demoUser "refactor everything" true (some "amadeus/x") none
      { demoEnv with anthropic_result := (call_anthropic_streaming loadsNone 429 [] none).2 } =
      .ok (failRes "Workflow failed" "AI returned no changes. Try a more specific request.",
        [Call.getRepo, Call.getBranchSha, Call.getTree, Call.aiCall]) :=
  ⟨rfl, rfl⟩

/-! ## C10 -/

/-- A user whose selected repository name has no `/` separator. -/
def demoUserBadRepo : User :=
  { github := { access_token := some "tok", selected_repo := some "abc" },
    api_keys := {}, settings := {} }

/-- C10 counterexample: `owner, repo_name = repo_full_name.split("/")` sits
before the `try` block, so a selected repository name without exactly one
`/` makes `execute` raise an uncaught `ValueError` instead of returning a
`WorkflowResult`. -/
theorem c10_counterexample :
    execute demoUserBadRepo "p" true none none demoEnv =
      .error "ValueError: unpack" := rfl

/-- C10 (amended): whenever the pre-`try` tuple unpacking cannot raise
(GitHub not connected, no repo selected, or a well-formed `owner/name`
repo), `execute` returns a `WorkflowResult` for every environment behaviour
— every exception raised inside the pipeline body is caught and converted
into a result with `success = false` — and every returned failure carries a
non-null error string. -/
theorem c10_no_uncaught_exception (user : User) (prompt : String) (cp : Bool)
    (eb : Option String) (pn : Option Nat) (env : Env)
    (hv : user.github.is_connected = false ∨
          pyTruthyStr user.github.selected_repo = false ∨
          (pySplitChar '/' (user.github.selected_repo.getD "")).length = 2) :
    ∃ r tr, execute user prompt cp eb pn env = .ok (r, tr) ∧
      (r.success = false → ∃ e, r.error = some e) := by
  obtain ⟨r, tr, h⟩ := execute_total user prompt cp eb pn env hv
  refine ⟨r, tr, h, ?_⟩
  intro hs
  rcases execute_ok_master _ _ _ _ _ _ _ _ h with ⟨m, e, rfl⟩ | ⟨hs', -⟩
  · exact ⟨e, rfl⟩
  · rw [hs'] at hs
    cases hs

/-- C10 witness: a repo-unreachable environment still yields a returned
failure with a non-null error. -/
theorem c10_no_uncaught_exception_witness :
    ∃ r tr, execute demoUser "p" true none none envRepoMissing = .ok (r, tr) ∧
      (r.success = false → ∃ e, r.error = some e) :=
  c10_no_uncaught_exception demoUser "p" true none none envRepoMissing
    (Or.inr (Or.inr (by decide)))

end Amadeus
